import Mathlib

/-!
Verification of the PLASMA tile-scheduling core (shallow embedding).

Each C function of the repository that the claims depend on is translated
into an executable Lean definition.  Drivers are modelled as functions that
return the trace of kernel-dispatch calls they emit (tasks are enqueued and
never block, so the driver's observable behaviour is exactly this trace plus
the sequence/request status updates it performs synchronously).  Machine
integers are modelled as `Nat`/`Int` (all tile indices and dimensions in the
sources are non-negative); `double` is modelled as `ℚ` and
`plasma_complex64_t` as `ℚ × ℚ`, which is faithful for the exact
`== 0.0` / `== 1.0` comparisons the sources perform.

Functions that the repository uses but whose definitions are not part of
`src/` (plasma_request_fail, the tile-view/tile-address inline helpers,
the pack/unpack tile kernels, the tree-reduction planner accessor) are
modelled from the specification; each such definition carries a
`Modelled from the spec:` doc comment.
-/

namespace Plasma

/-- Enumeration constants of `plasma_enum_t` used by the embedded sources
(uplo, trans, side, storage type, kernel kinds, element-type tags).
The numeric values from plasma_types.h are irrelevant to the claims; an
inductive type keeps the constants distinct and decidable. -/
inductive plasma_enum_t
  | PlasmaUpper
  | PlasmaLower
  | PlasmaGeneral
  | PlasmaNoTrans
  | PlasmaTrans
  | Plasma_ConjTrans
  | PlasmaLeft
  | PlasmaRight
  | PlasmaGEKernel
  | PlasmaTTKernel
  | PlasmaTSKernel
  | PlasmaComplexDouble
  | PlasmaRealDouble
  deriving DecidableEq, Repr

/-- Status code `PlasmaSuccess` (status codes are plain C ints: numeric
kernels report failures as integer offsets added to a base error code, so
the status type must be `Int`, not an enumeration). -/
def PlasmaSuccess : Int := 0

/-- Modelled from the spec: `PlasmaErrorIllegalValue` (plasma_types.h is not
in src/; the exact numeric value is immaterial, the codes are distinct). -/
def PlasmaErrorIllegalValue : Int := 101

/-- Modelled from the spec: `PlasmaErrorOutOfMemory`. -/
def PlasmaErrorOutOfMemory : Int := 102

/-- Modelled from the spec: `PlasmaErrorSequence` (attempted work on an
already-failed sequence). -/
def PlasmaErrorSequence : Int := 103

/-- Modelled from the spec: `PlasmaErrorNotInit` (library not initialized). -/
def PlasmaErrorNotInit : Int := 104

/-- A `plasma_sequence_t`: aggregate status of one asynchronous operation. -/
structure Sequence where
  status : Int
  deriving DecidableEq, Repr

/-- A `plasma_request_t`: status of one sub-operation within a Sequence. -/
structure Request where
  status : Int
  deriving DecidableEq, Repr

/-- Modelled from the spec: `plasma_request_fail(sequence, request, error)`
(control/async.c is not in src/): sets `request.status = errorCode` and
transitions `sequence.status` to `errorCode` only if it is still success.
The concurrent-atomicity aspect is out of scope of a shallow embedding; the
update function itself is modelled exactly. -/
def plasma_request_fail (sequence : Sequence) (request : Request) (error : Int) :
    Sequence × Request :=
  (if sequence.status = PlasmaSuccess then ⟨error⟩ else sequence, ⟨error⟩)

/-- Sequential composition of `plasma_request_fail` calls on one sequence,
each call carrying its own request object (requests are per-call; only the
sequence is shared). -/
def seqFold (s : Sequence) (codes : List Int) : Sequence :=
  codes.foldl (fun t c => (plasma_request_fail t ⟨PlasmaSuccess⟩ c).1) s

theorem seqFold_stable (t : Sequence) (l : List Int) (h : t.status ≠ PlasmaSuccess) :
    seqFold t l = t := by
  induction l with
  | nil => rfl
  | cons c rest ih =>
      simp only [seqFold, List.foldl_cons, plasma_request_fail, if_neg h]
      exact ih

/-- C1: `plasma_request_fail` is first-failure-wins: starting from a
successful sequence, after any non-empty run of `requestFail` calls with
non-success codes the sequence status is one of those codes (in the
sequential model: the first one), it is no longer success, and no later
`requestFail` call changes it. -/
theorem C1_requestFail_first_failure_wins (s : Sequence) (codes more : List Int)
    (h0 : s.status = PlasmaSuccess) (hne : codes ≠ [])
    (hall : ∀ c ∈ codes, c ≠ PlasmaSuccess) :
    (seqFold s codes).status ∈ codes ∧
    (seqFold s codes).status ≠ PlasmaSuccess ∧
    seqFold s (codes ++ more) = seqFold s codes := by
  cases codes with
  | nil => exact absurd rfl hne
  | cons c rest =>
      have hc : c ≠ PlasmaSuccess := hall c (List.mem_cons_self c rest)
      have hstep : (plasma_request_fail s ⟨PlasmaSuccess⟩ c).1 = ⟨c⟩ := by
        simp [plasma_request_fail, h0]
      have hfold : seqFold s (c :: rest) = ⟨c⟩ := by
        simp only [seqFold, List.foldl_cons]
        rw [show (plasma_request_fail s ⟨PlasmaSuccess⟩ c).1 = (⟨c⟩ : Sequence) from hstep]
        exact seqFold_stable ⟨c⟩ rest hc
      refine ⟨?_, ?_, ?_⟩
      · rw [hfold]; exact List.mem_cons_self c rest
      · rw [hfold]; exact hc
      · have : seqFold s ((c :: rest) ++ more) = seqFold ⟨c⟩ (rest ++ more) := by
          simp only [seqFold, List.cons_append, List.foldl_cons]
          rw [hstep]
        rw [this, seqFold_stable ⟨c⟩ (rest ++ more) hc, hfold]

/-- Witness for C1 at a concrete run: codes 101, 102 then a later call 103. -/
theorem C1_requestFail_first_failure_wins_witness :
    (seqFold ⟨PlasmaSuccess⟩ [101, 102]).status ∈ [(101 : Int), 102] ∧
    (seqFold ⟨PlasmaSuccess⟩ [101, 102]).status ≠ PlasmaSuccess ∧
    seqFold ⟨PlasmaSuccess⟩ ([101, 102] ++ [103]) = seqFold ⟨PlasmaSuccess⟩ [101, 102] :=
  C1_requestFail_first_failure_wins ⟨PlasmaSuccess⟩ [101, 102] [103] rfl
    (by decide) (by decide)

/-- A `plasma_desc_t` tile descriptor (the fields the embedded sources read:
storage type, tile sizes `mb × nb`, matrix extent `m × n`, offsets `i, j`
inside the backing allocation, and the tile-grid dimensions `mt × nt`). -/
structure Desc where
  type : plasma_enum_t
  mb : Nat
  nb : Nat
  m : Nat
  n : Nat
  i : Nat
  j : Nat
  mt : Nat
  nt : Nat
  deriving DecidableEq, Repr

/-- The C macro `imin`. -/
def imin (a b : Nat) : Nat := min a b

/-- The C macro `imax` (on C ints). -/
def imax (a b : Int) : Int := max a b

/-- Modelled from the spec: `plasma_tile_mview(A, k)` (plasma_internal.h is
not in src/) — effective row count of tile row `k`, equal to the fixed tile
size `mb` except on the last tile row, which holds the remainder. -/
def plasma_tile_mview (A : Desc) (k : Nat) : Nat :=
  if k = A.mt - 1 then A.m - k * A.mb else A.mb

/-- Modelled from the spec: `plasma_tile_nview(A, k)` — effective column
count of tile column `k`. -/
def plasma_tile_nview (A : Desc) (k : Nat) : Nat :=
  if k = A.nt - 1 then A.n - k * A.nb else A.nb

/-- Modelled from the spec: `plasma_tile_mmain(A, k)` — the storage (main)
row dimension of a tile, i.e. the leading dimension used when a tile is
addressed column-major; for general storage this is the fixed `mb`. -/
def plasma_tile_mmain (A : Desc) (_k : Nat) : Nat := A.mb

/-- Modelled from the spec: `plasma_tile_nmain(A, k)` — the storage (main)
column dimension of a tile; for general storage the fixed `nb`. -/
def plasma_tile_nmain (A : Desc) (_k : Nat) : Nat := A.nb

/-- Modelled from the spec: `plasma_tile_addr(A, m, n)` — base offset of
tile `(m, n)` inside the backing allocation; tiles are stored contiguously,
`mb*nb` elements each, in tile-column-major order. -/
def plasma_tile_addr (A : Desc) (m n : Nat) : Nat :=
  (m + A.mt * n) * (A.mb * A.nb)

/-- Kernel-dispatch events emitted by `plasma_pdtradd` (compute/pdtradd.c).
A tile argument is recorded as the coordinate pair passed to the
`plasma_tile_addr` macro `A(m,n)` / `B(m,n)`. -/
inductive TraddEvent
  | tradd (uplo transa : plasma_enum_t) (mdim ndim : Nat) (alpha : ℚ)
      (aTile : Nat × Nat) (lda : Nat) (beta : ℚ) (bTile : Nat × Nat) (ldb : Nat)
  | geadd (transa : plasma_enum_t) (mdim ndim : Nat) (alpha : ℚ)
      (aTile : Nat × Nat) (lda : Nat) (beta : ℚ) (bTile : Nat × Nat) (ldb : Nat)
  deriving DecidableEq, Repr

/-- The driver `plasma_pdtradd` (compute/pdtradd.c), embedded as the list of
kernel-dispatch calls it emits: `core_omp_dtradd` on each diagonal tile and
`core_omp_dgeadd` on each off-diagonal tile, in source order.  The C
`switch` has cases only for `PlasmaLower` and `PlasmaUpper`; any other uplo
dispatches nothing. -/
def plasma_pdtradd (uplo transa : plasma_enum_t) (alpha : ℚ) (A : Desc)
    (beta : ℚ) (B : Desc) (sequence : Sequence) : List TraddEvent :=
  if sequence.status ≠ PlasmaSuccess then []
  else if uplo = .PlasmaLower then
    if transa = .PlasmaNoTrans then
      (List.range (imin B.mt B.nt)).flatMap (fun n =>
        TraddEvent.tradd uplo transa (plasma_tile_mview B n) (plasma_tile_nview B n)
          alpha (n, n) (plasma_tile_mmain A n) beta (n, n) (plasma_tile_mmain B n) ::
        (List.range' (n + 1) (B.mt - (n + 1))).map (fun m =>
          TraddEvent.geadd transa (plasma_tile_mview B m) (plasma_tile_nview B n)
            alpha (m, n) (plasma_tile_mmain A m) beta (m, n) (plasma_tile_mmain B m)))
    else
      (List.range (imin B.mt B.nt)).flatMap (fun n =>
        TraddEvent.tradd uplo transa (plasma_tile_mview B n) (plasma_tile_nview B n)
          alpha (n, n) (plasma_tile_mmain A n) beta (n, n) (plasma_tile_mmain B n) ::
        (List.range' (n + 1) (B.mt - (n + 1))).map (fun m =>
          TraddEvent.geadd transa (plasma_tile_mview B m) (plasma_tile_nview B n)
            alpha (n, m) (plasma_tile_mmain A n) beta (m, n) (plasma_tile_mmain B m)))
  else if uplo = .PlasmaUpper then
    if transa = .PlasmaNoTrans then
      (List.range (imin B.mt B.nt)).flatMap (fun m =>
        TraddEvent.tradd uplo transa (plasma_tile_mview B m) (plasma_tile_nview B m)
          alpha (m, m) (plasma_tile_mmain A m) beta (m, m) (plasma_tile_mmain B m) ::
        (List.range' (m + 1) (B.nt - (m + 1))).map (fun n =>
          TraddEvent.geadd transa (plasma_tile_mview B m) (plasma_tile_nview B n)
            alpha (m, n) (plasma_tile_mmain A m) beta (m, n) (plasma_tile_mmain B m)))
    else
      (List.range (imin B.mt B.nt)).flatMap (fun m =>
        TraddEvent.tradd uplo transa (plasma_tile_mview B m) (plasma_tile_nview B m)
          alpha (m, m) (plasma_tile_mmain A m) beta (m, m) (plasma_tile_mmain B m) ::
        (List.range' (m + 1) (B.nt - (m + 1))).map (fun n =>
          TraddEvent.geadd transa (plasma_tile_mview B m) (plasma_tile_nview B n)
            alpha (n, m) (plasma_tile_mmain A n) beta (m, n) (plasma_tile_mmain B m)))
  else []

/-- The Lower-uplo dispatch pattern exactly as the specification sentence
describes it: walk columns `n` up to `min(mt,nt)-1`, one triangular-aware
kernel on the diagonal pair `A(n,n), B(n,n)` per column, one general add on
every pair with `m > n` writing `B(m,n)`, with the source tile address
transposed to `A(n,m)` (leading dimension of A's row-tile `n`) when
`transa ≠ PlasmaNoTrans`. -/
def traddLowerSpecTrace (transa : plasma_enum_t) (alpha : ℚ) (A : Desc)
    (beta : ℚ) (B : Desc) : List TraddEvent :=
  (List.range (min B.mt B.nt)).flatMap (fun n =>
    [TraddEvent.tradd .PlasmaLower transa (plasma_tile_mview B n) (plasma_tile_nview B n)
        alpha (n, n) (plasma_tile_mmain A n) beta (n, n) (plasma_tile_mmain B n)] ++
    (List.range' (n + 1) (B.mt - (n + 1))).map (fun m =>
      TraddEvent.geadd transa (plasma_tile_mview B m) (plasma_tile_nview B n) alpha
        (if transa = .PlasmaNoTrans then (m, n) else (n, m))
        (if transa = .PlasmaNoTrans then plasma_tile_mmain A m else plasma_tile_mmain A n)
        beta (m, n) (plasma_tile_mmain B m)))

/-- C5: for `uplo = PlasmaLower` the triangular-add driver emits exactly the
dispatch pattern the specification describes: per column `n` below
`min(B.mt, B.nt)`, one `core_omp_dtradd` on the diagonal pair and one
`core_omp_dgeadd` per row `m > n` writing `B(m,n)`, the source address being
`A(m,n)` for `PlasmaNoTrans` and the transposed `A(n,m)` (with `ldan`)
otherwise. -/
theorem C5_pdtradd_lower_walk (transa : plasma_enum_t) (alpha beta : ℚ)
    (A B : Desc) (s : Sequence) (hs : s.status = PlasmaSuccess) :
    plasma_pdtradd .PlasmaLower transa alpha A beta B s =
      traddLowerSpecTrace transa alpha A beta B := by
  by_cases htr : transa = plasma_enum_t.PlasmaNoTrans <;>
    simp [plasma_pdtradd, traddLowerSpecTrace, hs, htr, imin]

/-- Witness for C5 at a concrete instance (2×2 tile grid, transposed source). -/
theorem C5_pdtradd_lower_walk_witness :
    plasma_pdtradd .PlasmaLower .PlasmaTrans 2 ⟨.PlasmaGeneral, 2, 2, 4, 4, 0, 0, 2, 2⟩
        (1/2) ⟨.PlasmaGeneral, 2, 2, 4, 4, 0, 0, 2, 2⟩ ⟨PlasmaSuccess⟩ =
      traddLowerSpecTrace .PlasmaTrans 2 ⟨.PlasmaGeneral, 2, 2, 4, 4, 0, 0, 2, 2⟩
        (1/2) ⟨.PlasmaGeneral, 2, 2, 4, 4, 0, 0, 2, 2⟩ :=
  C5_pdtradd_lower_walk .PlasmaTrans 2 (1/2) _ _ ⟨PlasmaSuccess⟩ rfl

/-- One record of the tree-reduction operation list: kernel kind, target
panel column `j`, pivot-row tile `k`, eliminated-partner tile `kpiv`
(the planner packs these as four ints per record). -/
structure OpRecord where
  kernel : plasma_enum_t
  j : Nat
  k : Nat
  kpiv : Nat
  deriving DecidableEq, Repr

/-- Modelled from the spec: `plasma_rh_tree_operation_get(operations, ind, ...)`
(plasma_rh_tree.c is not in src/) — reads the record at index `ind` of the
planner's operation list. -/
def plasma_rh_tree_operation_get (operations : List OpRecord) (ind : Nat) : OpRecord :=
  operations.getD ind ⟨.PlasmaGEKernel, 0, 0, 0⟩

/-- The per-iteration index computation of `plasma_pzunmqrrh`: for
`PlasmaLeft`, `ind_operation = iop` when `trans == Plasma_ConjTrans` and
`noperations-1-iop` otherwise; for the right side the rule is inverted. -/
def unmqrrhIndex (side trans : plasma_enum_t) (noperations iop : Nat) : Nat :=
  if side = .PlasmaLeft then
    if trans = .Plasma_ConjTrans then iop else noperations - 1 - iop
  else
    if trans = .Plasma_ConjTrans then noperations - 1 - iop else iop

/-- The sequence of operation records in the order `plasma_pzunmqrrh`
consumes them (index `unmqrrhIndex` at each loop iteration `iop`). -/
def unmqrrhConsumed (side trans : plasma_enum_t) (operations : List OpRecord) :
    List OpRecord :=
  (List.range operations.length).map (fun iop =>
    plasma_rh_tree_operation_get operations
      (unmqrrhIndex side trans operations.length iop))

/-- Kernel dispatches and synchronous `requestFail` calls performed by
`plasma_pzunmqrrh`.  Tile arguments are recorded as the coordinate pairs
passed to the address macros; `T2(m,n)` is `plasma_tile_addr(T, m, n + T.nt/2)`
so its recorded coordinates are `(m, n + T.nt/2)`. -/
inductive ZEvent
  | unmqr (side trans : plasma_enum_t) (m n k ib : Nat)
      (a : Nat × Nat) (lda : Nat) (t : Nat × Nat) (ldt : Nat)
      (b : Nat × Nat) (ldb : Nat)
  | ttmqr (side trans : plasma_enum_t) (m1 n1 m2 n2 k ib : Nat)
      (a1 : Nat × Nat) (lda1 : Nat) (a2 : Nat × Nat) (lda2 : Nat)
      (v : Nat × Nat) (ldv : Nat) (t : Nat × Nat) (ldt : Nat)
  | tsmqr (side trans : plasma_enum_t) (m1 n1 m2 n2 k ib : Nat)
      (a1 : Nat × Nat) (lda1 : Nat) (a2 : Nat × Nat) (lda2 : Nat)
      (v : Nat × Nat) (ldv : Nat) (t : Nat × Nat) (ldt : Nat)
  | fail (code : Int)
  deriving DecidableEq, Repr

/-- Whether an event is a kernel dispatch (as opposed to a `requestFail`). -/
def ZEvent.isDispatch : ZEvent → Bool
  | .fail _ => false
  | _ => true

/-- The dispatches (or the `requestFail`) that one operation record
produces in `plasma_pzunmqrrh`, following the source branch for the given
side: `PlasmaGEKernel` dispatches `core_omp_zunmqr` over every tile column
(left) / tile row (right) of B; `PlasmaTTKernel` / `PlasmaTSKernel` dispatch
`core_omp_zttmqr` / `core_omp_ztsmqr` with the auxiliary tile `T2(k, j)`;
any other kind performs `plasma_request_fail(…, PlasmaErrorIllegalValue)`. -/
def unmqrrhRecordTrace (side trans : plasma_enum_t) (A T B : Desc) (ib : Nat)
    (r : OpRecord) : List ZEvent :=
  if side = .PlasmaLeft then
    if r.kernel = .PlasmaGEKernel then
      (List.range B.nt).map (fun n =>
        ZEvent.unmqr side trans (plasma_tile_mview B r.k) (plasma_tile_nview B n)
          (imin (plasma_tile_mview A r.k) (plasma_tile_nview A r.j)) ib
          (r.k, r.j) (plasma_tile_mmain A r.k) (r.k, r.j) T.mb
          (r.k, n) (plasma_tile_mmain B r.k))
    else if r.kernel = .PlasmaTTKernel then
      (List.range B.nt).map (fun n =>
        ZEvent.ttmqr side trans (plasma_tile_mview B r.kpiv) (plasma_tile_nview B n)
          (plasma_tile_mview B r.k) (plasma_tile_nview B n)
          (imin (plasma_tile_mview A r.kpiv + plasma_tile_mview A r.k)
            (plasma_tile_nview A r.j)) ib
          (r.kpiv, n) (plasma_tile_mmain B r.kpiv) (r.k, n) (plasma_tile_mmain B r.k)
          (r.k, r.j) (plasma_tile_mmain A r.k) (r.k, r.j + T.nt / 2) T.mb)
    else if r.kernel = .PlasmaTSKernel then
      (List.range B.nt).map (fun n =>
        ZEvent.tsmqr side trans (plasma_tile_mview B r.kpiv) (plasma_tile_nview B n)
          (plasma_tile_mview B r.k) (plasma_tile_nview B n)
          (imin (plasma_tile_mview A r.kpiv + plasma_tile_mview A r.k)
            (plasma_tile_nview A r.j)) ib
          (r.kpiv, n) (plasma_tile_mmain B r.kpiv) (r.k, n) (plasma_tile_mmain B r.k)
          (r.k, r.j) (plasma_tile_mmain A r.k) (r.k, r.j + T.nt / 2) T.mb)
    else [ZEvent.fail PlasmaErrorIllegalValue]
  else
    if r.kernel = .PlasmaGEKernel then
      (List.range B.mt).map (fun m =>
        ZEvent.unmqr side trans (plasma_tile_mview B m) (plasma_tile_nview B r.k)
          (imin (plasma_tile_mview A r.k) (plasma_tile_nview A r.j)) ib
          (r.k, r.j) (plasma_tile_mmain A r.k) (r.k, r.j) T.mb
          (m, r.k) (plasma_tile_mmain B m))
    else if r.kernel = .PlasmaTTKernel then
      (List.range B.mt).map (fun m =>
        ZEvent.ttmqr side trans (plasma_tile_mview B m) (plasma_tile_nview B r.kpiv)
          (plasma_tile_mview B m) (plasma_tile_nview B r.k)
          (imin (plasma_tile_mview A r.kpiv + plasma_tile_mview A r.k)
            (plasma_tile_nview A r.j)) ib
          (m, r.kpiv) (plasma_tile_mmain B m) (m, r.k) (plasma_tile_mmain B m)
          (r.k, r.j) (plasma_tile_mmain A r.k) (r.k, r.j + T.nt / 2) T.mb)
    else if r.kernel = .PlasmaTSKernel then
      (List.range B.mt).map (fun m =>
        ZEvent.tsmqr side trans (plasma_tile_mview B m) (plasma_tile_nview B r.kpiv)
          (plasma_tile_mview B m) (plasma_tile_nview B r.k)
          (imin (plasma_tile_mview A r.kpiv + plasma_tile_mview A r.k)
            (plasma_tile_nview A r.j)) ib
          (m, r.kpiv) (plasma_tile_mmain B m) (m, r.k) (plasma_tile_mmain B m)
          (r.k, r.j) (plasma_tile_mmain A r.k) (r.k, r.j + T.nt / 2) T.mb)
    else [ZEvent.fail PlasmaErrorIllegalValue]

/-- One loop iteration of `plasma_pzunmqrrh`: appends the record's
dispatches to the trace; on an unrecognized kind the sequence is failed via
`plasma_request_fail` (first-failure-wins) and nothing is dispatched. -/
def unmqrrhStep (side trans : plasma_enum_t) (A T B : Desc) (ib : Nat)
    (st : Sequence × List ZEvent) (r : OpRecord) : Sequence × List ZEvent :=
  (if r.kernel = .PlasmaGEKernel ∨ r.kernel = .PlasmaTTKernel ∨
      r.kernel = .PlasmaTSKernel then st.1
   else (plasma_request_fail st.1 ⟨PlasmaSuccess⟩ PlasmaErrorIllegalValue).1,
   st.2 ++ unmqrrhRecordTrace side trans A T B ib r)

/-- The driver `plasma_pzunmqrrh` (compute/pzunmqrrh.c): if the sequence has
already failed it calls `plasma_request_fail(…, PlasmaErrorSequence)` and
returns; otherwise it consumes the planner's operation list in the order
given by `unmqrrhIndex`, dispatching each record's kernels with inner
blocking `ib = T.mb`.  The result is the final sequence and the trace of
events. -/
def plasma_pzunmqrrh (side trans : plasma_enum_t) (A T B : Desc)
    (operations : List OpRecord) (sequence : Sequence) (request : Request) :
    Sequence × List ZEvent :=
  if sequence.status ≠ PlasmaSuccess then
    ((plasma_request_fail sequence request PlasmaErrorSequence).1,
     [ZEvent.fail PlasmaErrorSequence])
  else
    (unmqrrhConsumed side trans operations).foldl
      (unmqrrhStep side trans A T B T.mb) (sequence, [])

theorem getD_range_map_eq (ops : List OpRecord) (d : OpRecord) :
    (List.range ops.length).map (fun i => ops.getD i d) = ops := by
  apply List.ext_getElem
  · simp
  · intro i h1 h2
    simp only [List.getElem_map, List.getElem_range]
    exact List.getD_eq_getElem ops d h2

theorem getD_range_map_rev (ops : List OpRecord) (d : OpRecord) :
    (List.range ops.length).map (fun i => ops.getD (ops.length - 1 - i) d) =
      ops.reverse := by
  apply List.ext_getElem
  · simp
  · intro i h1 h2
    simp only [List.getElem_map, List.getElem_range, List.getElem_reverse]
    have hi : i < ops.length := by simpa using h1
    have hlt : ops.length - 1 - i < ops.length := by omega
    exact List.getD_eq_getElem ops d hlt

/-- C6: the order in which `plasma_pzunmqrrh` consumes the precomputed
operation list: forward for `side = PlasmaLeft` with `trans = Plasma_ConjTrans`,
reverse for `PlasmaLeft` without transpose; for `side = PlasmaRight` the rule
is inverted (reverse for `Plasma_ConjTrans`, forward otherwise). -/
theorem C6_pzunmqrrh_traversal_order (ops : List OpRecord) :
    unmqrrhConsumed .PlasmaLeft .Plasma_ConjTrans ops = ops ∧
    unmqrrhConsumed .PlasmaLeft .PlasmaNoTrans ops = ops.reverse ∧
    unmqrrhConsumed .PlasmaRight .Plasma_ConjTrans ops = ops.reverse ∧
    unmqrrhConsumed .PlasmaRight .PlasmaNoTrans ops = ops := by
  refine ⟨?_, ?_, ?_, ?_⟩ <;>
    simp only [unmqrrhConsumed, unmqrrhIndex, plasma_rh_tree_operation_get,
      reduceCtorEq, if_true, if_false, reduceIte] <;>
    first
      | exact getD_range_map_eq ops _
      | exact getD_range_map_rev ops _

/-- The sequence component of one `plasma_pzunmqrrh` loop iteration. -/
def unmqrrhSeqStep (st : Sequence) (r : OpRecord) : Sequence :=
  if r.kernel = .PlasmaGEKernel ∨ r.kernel = .PlasmaTTKernel ∨
      r.kernel = .PlasmaTSKernel then st
  else (plasma_request_fail st ⟨PlasmaSuccess⟩ PlasmaErrorIllegalValue).1

theorem unmqrrh_fold_trace (side trans : plasma_enum_t) (A T B : Desc) (ib : Nat)
    (l : List OpRecord) (s : Sequence) (evs : List ZEvent) :
    (l.foldl (unmqrrhStep side trans A T B ib) (s, evs)).2 =
      evs ++ l.flatMap (unmqrrhRecordTrace side trans A T B ib) := by
  induction l generalizing s evs with
  | nil => simp
  | cons r tl ih =>
      simp only [List.foldl_cons, List.flatMap_cons, unmqrrhStep]
      rw [ih]
      simp [List.append_assoc]

theorem unmqrrh_fold_seq (side trans : plasma_enum_t) (A T B : Desc) (ib : Nat)
    (l : List OpRecord) (s : Sequence) (evs : List ZEvent) :
    (l.foldl (unmqrrhStep side trans A T B ib) (s, evs)).1 =
      l.foldl unmqrrhSeqStep s := by
  induction l generalizing s evs with
  | nil => rfl
  | cons r tl ih =>
      simp only [List.foldl_cons, unmqrrhStep, unmqrrhSeqStep]
      exact ih _ _

theorem unmqrrhSeqStep_fold_recognized (l : List OpRecord) (s : Sequence)
    (h : ∀ r ∈ l, r.kernel = .PlasmaGEKernel ∨ r.kernel = .PlasmaTTKernel ∨
      r.kernel = .PlasmaTSKernel) :
    l.foldl unmqrrhSeqStep s = s := by
  induction l generalizing s with
  | nil => rfl
  | cons r tl ih =>
      simp only [List.foldl_cons, unmqrrhSeqStep, if_pos (h r (List.mem_cons_self r tl))]
      exact ih s (fun r' hr' => h r' (List.mem_cons_of_mem r hr'))

theorem unmqrrhSeqStep_fold_stable (l : List OpRecord) (s : Sequence)
    (h : s.status ≠ PlasmaSuccess) :
    l.foldl unmqrrhSeqStep s = s := by
  induction l with
  | nil => rfl
  | cons r tl ih =>
      simp only [List.foldl_cons, unmqrrhSeqStep, plasma_request_fail, if_neg h]
      split <;> exact ih

theorem pzunmqrrh_trace_flatMap (side trans : plasma_enum_t) (A T B : Desc)
    (ops : List OpRecord) (s : Sequence) (req : Request)
    (hs : s.status = PlasmaSuccess) :
    (plasma_pzunmqrrh side trans A T B ops s req).2 =
      (unmqrrhConsumed side trans ops).flatMap
        (unmqrrhRecordTrace side trans A T B T.mb) := by
  simp only [plasma_pzunmqrrh, hs, ne_eq, not_true_eq_false, if_false,
    not_not, if_pos]
  rw [unmqrrh_fold_trace]
  simp

/-- C3 counterexample: in `plasma_pzunmqrrh` (side = PlasmaLeft,
trans = Plasma_ConjTrans), an operation list whose first record carries an
unrecognized kernel kind fails the sequence at the first iteration, yet a
kernel dispatch is still emitted for the later `PlasmaGEKernel` record — the
failure observed mid-walk does not truncate dispatch. -/
theorem C3_midwalk_failure_counterexample :
    ((plasma_pzunmqrrh .PlasmaLeft .Plasma_ConjTrans
        ⟨.PlasmaGeneral, 2, 2, 2, 2, 0, 0, 1, 1⟩
        ⟨.PlasmaGeneral, 1, 1, 1, 2, 0, 0, 1, 2⟩
        ⟨.PlasmaGeneral, 2, 2, 2, 2, 0, 0, 1, 1⟩
        [⟨.PlasmaLower, 0, 0, 0⟩, ⟨.PlasmaGEKernel, 0, 0, 0⟩]
        ⟨PlasmaSuccess⟩ ⟨PlasmaSuccess⟩).2.getD 0 (.fail 0) =
      ZEvent.fail PlasmaErrorIllegalValue) ∧
    ((plasma_pzunmqrrh .PlasmaLeft .Plasma_ConjTrans
        ⟨.PlasmaGeneral, 2, 2, 2, 2, 0, 0, 1, 1⟩
        ⟨.PlasmaGeneral, 1, 1, 1, 2, 0, 0, 1, 2⟩
        ⟨.PlasmaGeneral, 2, 2, 2, 2, 0, 0, 1, 1⟩
        [⟨.PlasmaLower, 0, 0, 0⟩, ⟨.PlasmaGEKernel, 0, 0, 0⟩]
        ⟨PlasmaSuccess⟩ ⟨PlasmaSuccess⟩).2.drop 1).filter ZEvent.isDispatch ≠ [] := by
  constructor
  · rfl
  · decide

/-- C3 amended: `plasma_pzunmqrrh` checks the sequence only on entry; a
failure arising during the walk (such as an unrecognized kernel kind) does
not truncate further dispatch — the driver's event trace is the full
concatenation of every consumed record's dispatches, independent of any
mid-walk `requestFail` (suppression of the numeric work happens only inside
the guarded task bodies; already-dispatched work is not unwound). -/
theorem C3_no_midwalk_truncation (side trans : plasma_enum_t) (A T B : Desc)
    (ops : List OpRecord) (s : Sequence) (req : Request)
    (hs : s.status = PlasmaSuccess) :
    (plasma_pzunmqrrh side trans A T B ops s req).2 =
      (unmqrrhConsumed side trans ops).flatMap
        (unmqrrhRecordTrace side trans A T B T.mb) :=
  pzunmqrrh_trace_flatMap side trans A T B ops s req hs

/-- Witness for C3's amended theorem at a concrete run containing a failing
record followed by a dispatching record. -/
theorem C3_no_midwalk_truncation_witness :
    (plasma_pzunmqrrh .PlasmaLeft .Plasma_ConjTrans
        ⟨.PlasmaGeneral, 2, 2, 2, 2, 0, 0, 1, 1⟩
        ⟨.PlasmaGeneral, 1, 1, 1, 2, 0, 0, 1, 2⟩
        ⟨.PlasmaGeneral, 2, 2, 2, 2, 0, 0, 1, 1⟩
        [⟨.PlasmaLower, 1, 0, 0⟩, ⟨.PlasmaGEKernel, 0, 0, 0⟩]
        ⟨PlasmaSuccess⟩ ⟨PlasmaSuccess⟩).2 =
      (unmqrrhConsumed .PlasmaLeft .Plasma_ConjTrans
          [⟨.PlasmaLower, 1, 0, 0⟩, ⟨.PlasmaGEKernel, 0, 0, 0⟩]).flatMap
        (unmqrrhRecordTrace .PlasmaLeft .Plasma_ConjTrans
          ⟨.PlasmaGeneral, 2, 2, 2, 2, 0, 0, 1, 1⟩
          ⟨.PlasmaGeneral, 1, 1, 1, 2, 0, 0, 1, 2⟩
          ⟨.PlasmaGeneral, 2, 2, 2, 2, 0, 0, 1, 1⟩ 1) :=
  C3_no_midwalk_truncation .PlasmaLeft .Plasma_ConjTrans _ _ _ _ ⟨PlasmaSuccess⟩
    ⟨PlasmaSuccess⟩ rfl

/-- The auxiliary coefficient tile passed to a tile-merge kernel
(`core_omp_zttmqr` / `core_omp_ztsmqr`), if the event is one. -/
def ZEvent.auxTile : ZEvent → Option (Nat × Nat)
  | .ttmqr _ _ _ _ _ _ _ _ _ _ _ _ _ _ t _ => some t
  | .tsmqr _ _ _ _ _ _ _ _ _ _ _ _ _ _ t _ => some t
  | _ => none

/-- Property of one event: a tile-merge kernel (TT or TS alike) receives the
second-half auxiliary tile `T2(k, j)`, i.e. its auxiliary tile is the
reflector tile's coordinates shifted by `off = T.nt/2` columns; a
panel-update kernel (`core_omp_zunmqr`, the GE kind) receives the first-half
tile `T(k, j)`, equal to its reflector tile's coordinates. -/
def ZEvent.auxSecondHalf (off : Nat) : ZEvent → Prop
  | .ttmqr _ _ _ _ _ _ _ _ _ _ _ _ v _ t _ => t = (v.1, v.2 + off)
  | .tsmqr _ _ _ _ _ _ _ _ _ _ _ _ v _ t _ => t = (v.1, v.2 + off)
  | .unmqr _ _ _ _ _ _ a _ t _ _ _ => t = a
  | .fail _ => True

/-- C7 counterexample: for the same record coordinates `(k, j) = (0, 0)` and
a `T` descriptor with `T.nt = 2`, the auxiliary tile passed to the TT-merge
kernel and the one passed to the TS-merge kernel are the *same* second-half
tile `T2(0,0) = (0, 0 + T.nt/2) = (0, 1)` — they do not differ, contrary to
the claim that one merge kind uses the first half and the other the second. -/
theorem C7_aux_tile_counterexample :
    ((plasma_pzunmqrrh .PlasmaLeft .Plasma_ConjTrans
        ⟨.PlasmaGeneral, 2, 2, 4, 2, 0, 0, 2, 1⟩
        ⟨.PlasmaGeneral, 1, 1, 1, 2, 0, 0, 1, 2⟩
        ⟨.PlasmaGeneral, 2, 2, 4, 2, 0, 0, 2, 1⟩
        [⟨.PlasmaTTKernel, 0, 0, 1⟩, ⟨.PlasmaTSKernel, 0, 0, 1⟩]
        ⟨PlasmaSuccess⟩ ⟨PlasmaSuccess⟩).2.getD 0 (.fail 0)).auxTile = some (0, 1) ∧
    ((plasma_pzunmqrrh .PlasmaLeft .Plasma_ConjTrans
        ⟨.PlasmaGeneral, 2, 2, 4, 2, 0, 0, 2, 1⟩
        ⟨.PlasmaGeneral, 1, 1, 1, 2, 0, 0, 1, 2⟩
        ⟨.PlasmaGeneral, 2, 2, 4, 2, 0, 0, 2, 1⟩
        [⟨.PlasmaTTKernel, 0, 0, 1⟩, ⟨.PlasmaTSKernel, 0, 0, 1⟩]
        ⟨PlasmaSuccess⟩ ⟨PlasmaSuccess⟩).2.getD 1 (.fail 0)).auxTile = some (0, 1) := by
  constructor <;> rfl

/-- C7 amended: in `plasma_pzunmqrrh` the TT-merge and the TS-merge kernels
*both* receive the second-half auxiliary tile region (the `T2` addressing,
column offset `T.nt/2`): for the same `(k, j)` their auxiliary tile
addresses are equal, not different; the first half `T(k, j)` is used by the
GE panel-update kernel. -/
theorem C7_merge_kernels_use_second_half (side trans : plasma_enum_t)
    (A T B : Desc) (ops : List OpRecord) (s : Sequence) (req : Request)
    (hs : s.status = PlasmaSuccess) (e : ZEvent)
    (he : e ∈ (plasma_pzunmqrrh side trans A T B ops s req).2) :
    e.auxSecondHalf (T.nt / 2) := by
  rw [pzunmqrrh_trace_flatMap side trans A T B ops s req hs] at he
  obtain ⟨r, _, he'⟩ := List.mem_flatMap.1 he
  unfold unmqrrhRecordTrace at he'
  split_ifs at he' <;>
    first
      | (obtain ⟨n, _, rfl⟩ := List.mem_map.1 he'; exact rfl)
      | (simp only [List.mem_singleton] at he'; subst he'; trivial)

/-- Witness for C7's amended theorem at a concrete TT dispatch. -/
theorem C7_merge_kernels_use_second_half_witness :
    ZEvent.auxSecondHalf 1
      ((plasma_pzunmqrrh .PlasmaLeft .Plasma_ConjTrans
          ⟨.PlasmaGeneral, 2, 2, 4, 2, 0, 0, 2, 1⟩
          ⟨.PlasmaGeneral, 1, 1, 1, 2, 0, 0, 1, 2⟩
          ⟨.PlasmaGeneral, 2, 2, 4, 2, 0, 0, 2, 1⟩
          [⟨.PlasmaTTKernel, 0, 0, 1⟩] ⟨PlasmaSuccess⟩ ⟨PlasmaSuccess⟩).2.getD 0
        (.fail 0)) :=
  C7_merge_kernels_use_second_half .PlasmaLeft .Plasma_ConjTrans
    ⟨.PlasmaGeneral, 2, 2, 4, 2, 0, 0, 2, 1⟩
    ⟨.PlasmaGeneral, 1, 1, 1, 2, 0, 0, 1, 2⟩
    ⟨.PlasmaGeneral, 2, 2, 4, 2, 0, 0, 2, 1⟩
    [⟨.PlasmaTTKernel, 0, 0, 1⟩] ⟨PlasmaSuccess⟩ ⟨PlasmaSuccess⟩ rfl _ (by decide)

/-- C8 counterexample: an operation record with an unrecognized kernel kind
makes `plasma_pzunmqrrh` fail the sequence with `PlasmaErrorIllegalValue` —
the very same code used for bad arguments (e.g. by `plasma_omp_zsyrk`'s
argument checks) — not a distinct IllegalKernel code. -/
theorem C8_illegal_kernel_code_counterexample :
    (plasma_pzunmqrrh .PlasmaLeft .Plasma_ConjTrans
        ⟨.PlasmaGeneral, 2, 2, 2, 2, 0, 0, 1, 1⟩
        ⟨.PlasmaGeneral, 1, 1, 1, 2, 0, 0, 1, 2⟩
        ⟨.PlasmaGeneral, 2, 2, 2, 2, 0, 0, 1, 1⟩
        [⟨.PlasmaLower, 0, 0, 0⟩] ⟨PlasmaSuccess⟩ ⟨PlasmaSuccess⟩).1.status =
      PlasmaErrorIllegalValue := by
  rfl

/-- C8 amended: when an operation record carries a kernel kind that is none
of GE, TT, TS, `plasma_pzunmqrrh` fails the sequence via
`plasma_request_fail` with `PlasmaErrorIllegalValue` — the same code used
for bad arguments, not a distinct IllegalKernel code — and dispatches no
kernel for that record (its trace contribution is only the failure). -/
theorem C8_illegal_kernel_fails_with_illegal_value (A T B : Desc)
    (l1 l2 : List OpRecord) (r : OpRecord) (s : Sequence) (req : Request)
    (hs : s.status = PlasmaSuccess)
    (hbad : ¬(r.kernel = .PlasmaGEKernel ∨ r.kernel = .PlasmaTTKernel ∨
      r.kernel = .PlasmaTSKernel))
    (hgood : ∀ r' ∈ l1, r'.kernel = .PlasmaGEKernel ∨
      r'.kernel = .PlasmaTTKernel ∨ r'.kernel = .PlasmaTSKernel) :
    (plasma_pzunmqrrh .PlasmaLeft .Plasma_ConjTrans A T B (l1 ++ r :: l2) s
        req).1.status = PlasmaErrorIllegalValue ∧
    unmqrrhRecordTrace .PlasmaLeft .Plasma_ConjTrans A T B T.mb r =
      [ZEvent.fail PlasmaErrorIllegalValue] := by
  have hbad1 : r.kernel ≠ plasma_enum_t.PlasmaGEKernel := fun h => hbad (Or.inl h)
  have hbad2 : r.kernel ≠ plasma_enum_t.PlasmaTTKernel :=
    fun h => hbad (Or.inr (Or.inl h))
  have hbad3 : r.kernel ≠ plasma_enum_t.PlasmaTSKernel :=
    fun h => hbad (Or.inr (Or.inr h))
  constructor
  · have hcons : unmqrrhConsumed .PlasmaLeft .Plasma_ConjTrans (l1 ++ r :: l2) =
        l1 ++ r :: l2 := by
      simp only [unmqrrhConsumed, unmqrrhIndex, plasma_rh_tree_operation_get,
        reduceCtorEq, if_true, if_false, reduceIte]
      exact getD_range_map_eq _ _
    simp only [plasma_pzunmqrrh, hs, ne_eq, not_true_eq_false, if_false,
      not_not, if_pos, hcons]
    rw [unmqrrh_fold_seq]
    rw [List.foldl_append, unmqrrhSeqStep_fold_recognized l1 s hgood,
      List.foldl_cons]
    have hfailstep : unmqrrhSeqStep s r = ⟨PlasmaErrorIllegalValue⟩ := by
      simp [unmqrrhSeqStep, if_neg hbad, plasma_request_fail, hs]
    rw [hfailstep, unmqrrhSeqStep_fold_stable l2 ⟨PlasmaErrorIllegalValue⟩
      (by simp [PlasmaErrorIllegalValue, PlasmaSuccess])]
  · simp [unmqrrhRecordTrace, hbad1, hbad2, hbad3]

/-- Witness for C8's amended theorem at a concrete operation list. -/
theorem C8_illegal_kernel_fails_with_illegal_value_witness :
    (plasma_pzunmqrrh .PlasmaLeft .Plasma_ConjTrans
        ⟨.PlasmaGeneral, 2, 2, 2, 2, 0, 0, 1, 1⟩
        ⟨.PlasmaGeneral, 1, 1, 1, 2, 0, 0, 1, 2⟩
        ⟨.PlasmaGeneral, 2, 2, 2, 2, 0, 0, 1, 1⟩
        ([⟨.PlasmaGEKernel, 0, 0, 0⟩] ++ ⟨.PlasmaUpper, 0, 0, 0⟩ ::
          [⟨.PlasmaGEKernel, 0, 0, 0⟩]) ⟨PlasmaSuccess⟩ ⟨PlasmaSuccess⟩).1.status =
      PlasmaErrorIllegalValue ∧
    unmqrrhRecordTrace .PlasmaLeft .Plasma_ConjTrans
        ⟨.PlasmaGeneral, 2, 2, 2, 2, 0, 0, 1, 1⟩
        ⟨.PlasmaGeneral, 1, 1, 1, 2, 0, 0, 1, 2⟩
        ⟨.PlasmaGeneral, 2, 2, 2, 2, 0, 0, 1, 1⟩ 1 ⟨.PlasmaUpper, 0, 0, 0⟩ =
      [ZEvent.fail PlasmaErrorIllegalValue] :=
  C8_illegal_kernel_fails_with_illegal_value _ _ _ _ _ _ ⟨PlasmaSuccess⟩
    ⟨PlasmaSuccess⟩ rfl (by decide) (by decide)

/-- The per-tile first stored column `x1 = (n == 0 ? A.j % A.nb : 0)`
(identical lines in pdtr2desc_blasfeo.c and pddesc2tr_blasfeo.c). -/
def convX1 (A : Desc) (n : Nat) : Nat := if n = 0 then A.j % A.nb else 0

/-- The per-tile first stored row `y1 = (m == 0 ? A.i % A.mb : 0)`. -/
def convY1 (A : Desc) (m : Nat) : Nat := if m = 0 then A.i % A.mb else 0

/-- The per-tile one-past-last stored column
`x2 = (n == A.nt-1 ? (A.j+A.n-1) % A.nb + 1 : A.nb)`. -/
def convX2 (A : Desc) (n : Nat) : Nat :=
  if n = A.nt - 1 then (A.j + A.n - 1) % A.nb + 1 else A.nb

/-- The per-tile one-past-last stored row
`y2 = (m == A.mt-1 ? (A.i+A.m-1) % A.mb + 1 : A.mb)`. -/
def convY2 (A : Desc) (m : Nat) : Nat :=
  if m = A.mt - 1 then (A.i + A.m - 1) % A.mb + 1 else A.mb

/-- Modelled from the spec: the per-tile copy kernels
`plasma_core_omp_dpack_blasfeo` / `plasma_core_omp_dunpack_blasfeo` (their
source is not in src/; the spec specifies the layout conversion only as an
interface with `fromTiled` the inverse of `toTiled`).  Each copies a
`rows × cols` column-major block from `srcOff` (leading dimension `ldsrc`)
to `dstOff` (leading dimension `lddst`); the result is the list of
`(destination address, source address)` pairs, one per element. -/
def blockCopies (rows cols srcOff ldsrc dstOff lddst : Nat) : List (Nat × Nat) :=
  (List.range cols).flatMap (fun jj =>
    (List.range rows).map (fun ii =>
      (dstOff + jj * lddst + ii, srcOff + jj * ldsrc + ii)))

/-- Applying a list of element copies: each pair `(a, b)` sets
`dst a := src b` (the two address spaces are distinct allocations, so the
source memory is never modified by the copies themselves). -/
def applyCopies (dst src : Nat → ℤ) (ps : List (Nat × Nat)) : Nat → ℤ :=
  ps.foldl (fun d p => Function.update d p.1 (src p.2)) dst

/-- The tile walk of `plasma_pdtr2desc_blasfeo` (pdtr2desc_blasfeo.c):
row tiles `m = 0 .. A.mt-1`; columns `n_start = (upper ? m : 0)` to
`n_end = (upper ? A.nt : m+1)` exclusive. -/
def tr2descTiles (A : Desc) : List (Nat × Nat) :=
  (List.range A.mt).flatMap (fun m =>
    (List.range' (if A.type = .PlasmaUpper then m else 0)
        ((if A.type = .PlasmaUpper then A.nt else m + 1) -
          (if A.type = .PlasmaUpper then m else 0))).map (fun n => (m, n)))

/-- The element copies of `plasma_pdtr2desc_blasfeo`: one
`plasma_core_omp_dpack_blasfeo` call per walked tile, copying the stored
block from the column-major buffer `pA` (base `&pA[A.nb*lda*n + A.mb*m]`,
block corner `x1*lda + y1`) into the tile (base `plasma_tile_addr(A,m,n)`,
corner `x1*A.nb + y1`, leading dimension `ldt = plasma_tile_nmain(A, n)`). -/
def tr2descCopies (lda : Nat) (A : Desc) : List (Nat × Nat) :=
  (tr2descTiles A).flatMap (fun p =>
    blockCopies (convY2 A p.1 - convY1 A p.1) (convX2 A p.2 - convX1 A p.2)
      (A.nb * lda * p.2 + A.mb * p.1 + convX1 A p.2 * lda + convY1 A p.1) lda
      (plasma_tile_addr A p.1 p.2 + convX1 A p.2 * A.nb + convY1 A p.1)
      (plasma_tile_nmain A p.2))

/-- The driver `plasma_pdtr2desc_blasfeo` (column-major buffer → tiled):
returns the updated tile memory. -/
def plasma_pdtr2desc_blasfeo (pA : Nat → ℤ) (lda : Nat) (A : Desc)
    (tiles : Nat → ℤ) (sequence : Sequence) : Nat → ℤ :=
  if sequence.status ≠ PlasmaSuccess then tiles
  else applyCopies tiles pA (tr2descCopies lda A)

/-- The tile walk of `plasma_pddesc2tr_blasfeo` (pddesc2tr_blasfeo.c); the
loop bounds are the same lines as in pdtr2desc_blasfeo.c. -/
def desc2trTiles (A : Desc) : List (Nat × Nat) :=
  (List.range A.mt).flatMap (fun m =>
    (List.range' (if A.type = .PlasmaUpper then m else 0)
        ((if A.type = .PlasmaUpper then A.nt else m + 1) -
          (if A.type = .PlasmaUpper then m else 0))).map (fun n => (m, n)))

/-- The element copies of `plasma_pddesc2tr_blasfeo`: one
`plasma_core_omp_dunpack_blasfeo` call per walked tile, copying the stored
block out of the tile (leading dimension `ldt = plasma_tile_mmain(A, m)`)
back into the column-major buffer. -/
def desc2trCopies (lda : Nat) (A : Desc) : List (Nat × Nat) :=
  (desc2trTiles A).flatMap (fun p =>
    blockCopies (convY2 A p.1 - convY1 A p.1) (convX2 A p.2 - convX1 A p.2)
      (plasma_tile_addr A p.1 p.2 + convX1 A p.2 * A.nb + convY1 A p.1)
      (plasma_tile_mmain A p.1)
      (A.nb * lda * p.2 + A.mb * p.1 + convX1 A p.2 * lda + convY1 A p.1) lda)

/-- The driver `plasma_pddesc2tr_blasfeo` (tiled → column-major buffer):
returns the updated column-major buffer. -/
def plasma_pddesc2tr_blasfeo (A : Desc) (tiles : Nat → ℤ) (pA : Nat → ℤ)
    (lda : Nat) (sequence : Sequence) : Nat → ℤ :=
  if sequence.status ≠ PlasmaSuccess then pA
  else applyCopies pA tiles (desc2trCopies lda A)

/-- C2: every parallel driver entry point checks `sequence->status` first;
on an already-failed sequence `plasma_pdtradd` dispatches nothing,
`plasma_pzunmqrrh` dispatches no kernel, `plasma_pdtr2desc_blasfeo` leaves
the tile memory unchanged, and `plasma_pddesc2tr_blasfeo` leaves the
column-major buffer unchanged. -/
theorem C2_drivers_check_sequence_on_entry
    (uplo transa side trans : plasma_enum_t) (alpha beta : ℚ)
    (A B A2 T2 B2 A3 : Desc) (ops : List OpRecord) (pA tiles : Nat → ℤ)
    (lda : Nat) (s : Sequence) (req : Request)
    (h : s.status ≠ PlasmaSuccess) :
    plasma_pdtradd uplo transa alpha A beta B s = [] ∧
    ((plasma_pzunmqrrh side trans A2 T2 B2 ops s req).2).filter
      ZEvent.isDispatch = [] ∧
    plasma_pdtr2desc_blasfeo pA lda A3 tiles s = tiles ∧
    plasma_pddesc2tr_blasfeo A3 tiles pA lda s = pA := by
  refine ⟨?_, ?_, ?_, ?_⟩
  · simp [plasma_pdtradd, h]
  · simp [plasma_pzunmqrrh, h, ZEvent.isDispatch]
  · simp [plasma_pdtr2desc_blasfeo, h]
  · simp [plasma_pddesc2tr_blasfeo, h]

/-- Witness for C2 on a concretely failed sequence. -/
theorem C2_drivers_check_sequence_on_entry_witness :
    plasma_pdtradd .PlasmaLower .PlasmaNoTrans 1
        ⟨.PlasmaGeneral, 2, 2, 4, 4, 0, 0, 2, 2⟩ 1
        ⟨.PlasmaGeneral, 2, 2, 4, 4, 0, 0, 2, 2⟩ ⟨PlasmaErrorOutOfMemory⟩ = [] ∧
    ((plasma_pzunmqrrh .PlasmaLeft .Plasma_ConjTrans
        ⟨.PlasmaGeneral, 2, 2, 2, 2, 0, 0, 1, 1⟩
        ⟨.PlasmaGeneral, 1, 1, 1, 2, 0, 0, 1, 2⟩
        ⟨.PlasmaGeneral, 2, 2, 2, 2, 0, 0, 1, 1⟩
        [⟨.PlasmaGEKernel, 0, 0, 0⟩] ⟨PlasmaErrorOutOfMemory⟩ ⟨PlasmaSuccess⟩).2).filter
      ZEvent.isDispatch = [] ∧
    plasma_pdtr2desc_blasfeo (fun _ => 7) 4 ⟨.PlasmaGeneral, 2, 2, 4, 4, 0, 0, 2, 2⟩
      (fun _ => 0) ⟨PlasmaErrorOutOfMemory⟩ = (fun _ => 0) ∧
    plasma_pddesc2tr_blasfeo ⟨.PlasmaGeneral, 2, 2, 4, 4, 0, 0, 2, 2⟩
      (fun _ => 0) (fun _ => 7) 4 ⟨PlasmaErrorOutOfMemory⟩ = (fun _ => 7) :=
  C2_drivers_check_sequence_on_entry .PlasmaLower .PlasmaNoTrans .PlasmaLeft
    .Plasma_ConjTrans 1 1 ⟨.PlasmaGeneral, 2, 2, 4, 4, 0, 0, 2, 2⟩
    ⟨.PlasmaGeneral, 2, 2, 4, 4, 0, 0, 2, 2⟩
    ⟨.PlasmaGeneral, 2, 2, 2, 2, 0, 0, 1, 1⟩
    ⟨.PlasmaGeneral, 1, 1, 1, 2, 0, 0, 1, 2⟩
    ⟨.PlasmaGeneral, 2, 2, 2, 2, 0, 0, 1, 1⟩
    ⟨.PlasmaGeneral, 2, 2, 4, 4, 0, 0, 2, 2⟩
    [⟨.PlasmaGEKernel, 0, 0, 0⟩] (fun _ => 7) (fun _ => 0) 4
    ⟨PlasmaErrorOutOfMemory⟩ ⟨PlasmaSuccess⟩ (by decide)

theorem applyCopies_cons (d s : Nat → ℤ) (p : Nat × Nat) (t : List (Nat × Nat)) :
    applyCopies d s (p :: t) = applyCopies (Function.update d p.1 (s p.2)) s t := rfl

theorem applyCopies_not_mem {ps : List (Nat × Nat)} {d s : Nat → ℤ} {a : Nat}
    (h : ∀ p ∈ ps, p.1 ≠ a) : applyCopies d s ps a = d a := by
  induction ps generalizing d with
  | nil => rfl
  | cons p t ih =>
      rw [applyCopies_cons, ih (fun q hq => h q (List.mem_cons_of_mem p hq))]
      exact Function.update_noteq (Ne.symm (h p (List.mem_cons_self p t))) _ d

theorem applyCopies_mem {ps : List (Nat × Nat)} {d s : Nat → ℤ} {a b : Nat}
    (hmem : (a, b) ∈ ps) (huniq : ∀ p ∈ ps, p.1 = a → p.2 = b) :
    applyCopies d s ps a = s b := by
  induction ps generalizing d with
  | nil => cases hmem
  | cons p t ih =>
      by_cases hmt : (a, b) ∈ t
      · exact (applyCopies_cons d s p t) ▸
          ih hmt (fun q hq => huniq q (List.mem_cons_of_mem p hq))
      · have hp : p = (a, b) := by
          rcases List.mem_cons.1 hmem with h | h
          · exact h.symm
          · exact absurd h hmt
        have hnot : ∀ q ∈ t, q.1 ≠ a := by
          intro q hq hqa
          have hqb := huniq q (List.mem_cons_of_mem p hq) hqa
          have : q = (a, b) := Prod.ext hqa hqb
          exact hmt (this ▸ hq)
        rw [applyCopies_cons, applyCopies_not_mem hnot, hp]
        exact Function.update_same a (s b) d

theorem applyCopies_id {ps : List (Nat × Nat)} {d s : Nat → ℤ}
    (h : ∀ p ∈ ps, s p.2 = d p.1) : applyCopies d s ps = d := by
  induction ps generalizing d with
  | nil => rfl
  | cons p t ih =>
      rw [applyCopies_cons, h p (List.mem_cons_self p t),
        Function.update_eq_self p.1 d]
      exact ih (fun q hq => h q (List.mem_cons_of_mem p hq))

theorem euclid_unique {K q1 r1 q2 r2 : Nat} (hK : 0 < K) (h1 : r1 < K)
    (h2 : r2 < K) (h : q1 * K + r1 = q2 * K + r2) : q1 = q2 ∧ r1 = r2 := by
  have e1 : (q1 * K + r1) / K = q1 := by
    rw [Nat.mul_comm q1 K, Nat.mul_add_div hK, Nat.div_eq_of_lt h1, Nat.add_zero]
  have e2 : (q2 * K + r2) / K = q2 := by
    rw [Nat.mul_comm q2 K, Nat.mul_add_div hK, Nat.div_eq_of_lt h2, Nat.add_zero]
  have hq : q1 = q2 := by rw [← e1, ← e2, h]
  refine ⟨hq, ?_⟩
  rw [hq] at h
  exact Nat.add_left_cancel h

/-- The tile-side address of one copied element in the to-tiled direction
(tile leading dimension `plasma_tile_nmain = A.nb`). -/
def packTileOff (A : Desc) (m n jj ii : Nat) : Nat :=
  plasma_tile_addr A m n + convX1 A n * A.nb + convY1 A m + jj * A.nb + ii

/-- The tile-side address of one copied element in the from-tiled direction
(tile leading dimension `plasma_tile_mmain = A.mb`). -/
def unpackTileOff (A : Desc) (m n jj ii : Nat) : Nat :=
  plasma_tile_addr A m n + convX1 A n * A.nb + convY1 A m + jj * A.mb + ii

/-- The column-major-buffer address of one copied element. -/
def f77Off (A : Desc) (lda m n jj ii : Nat) : Nat :=
  A.nb * lda * n + A.mb * m + convX1 A n * lda + convY1 A m + jj * lda + ii

theorem mem_tr2descCopies {lda : Nat} {A : Desc} {p : Nat × Nat} :
    p ∈ tr2descCopies lda A ↔
    ∃ m n jj ii, (m, n) ∈ tr2descTiles A ∧ jj < convX2 A n - convX1 A n ∧
      ii < convY2 A m - convY1 A m ∧
      p = (packTileOff A m n jj ii, f77Off A lda m n jj ii) := by
  simp only [tr2descCopies, blockCopies, List.mem_flatMap, List.mem_map,
    List.mem_range, plasma_tile_nmain]
  constructor
  · rintro ⟨⟨m, n⟩, hmn, jj, hjj, ii, hii, rfl⟩
    exact ⟨m, n, jj, ii, hmn, hjj, hii, rfl⟩
  · rintro ⟨m, n, jj, ii, hmn, hjj, hii, rfl⟩
    exact ⟨(m, n), hmn, jj, hjj, ii, hii, rfl⟩

theorem mem_desc2trCopies {lda : Nat} {A : Desc} {p : Nat × Nat} :
    p ∈ desc2trCopies lda A ↔
    ∃ m n jj ii, (m, n) ∈ desc2trTiles A ∧ jj < convX2 A n - convX1 A n ∧
      ii < convY2 A m - convY1 A m ∧
      p = (f77Off A lda m n jj ii, unpackTileOff A m n jj ii) := by
  simp only [desc2trCopies, blockCopies, List.mem_flatMap, List.mem_map,
    List.mem_range, plasma_tile_mmain]
  constructor
  · rintro ⟨⟨m, n⟩, hmn, jj, hjj, ii, hii, rfl⟩
    exact ⟨m, n, jj, ii, hmn, hjj, hii, rfl⟩
  · rintro ⟨m, n, jj, ii, hmn, hjj, hii, rfl⟩
    exact ⟨(m, n), hmn, jj, hjj, ii, hii, rfl⟩

theorem mem_tr2descTiles_mt {A : Desc} {m n : Nat}
    (h : (m, n) ∈ tr2descTiles A) : m < A.mt := by
  simp only [tr2descTiles, List.mem_flatMap, List.mem_map, List.mem_range] at h
  obtain ⟨a, ha, n', _, heq⟩ := h
  have ham : a = m := congrArg Prod.fst heq
  exact ham ▸ ha

theorem convX2_le {A : Desc} (h : 0 < A.nb) (n : Nat) : convX2 A n ≤ A.nb := by
  unfold convX2
  split
  · exact Nat.mod_lt _ h
  · exact Nat.le_refl _

theorem convY2_le {A : Desc} (h : 0 < A.mb) (m : Nat) : convY2 A m ≤ A.mb := by
  unfold convY2
  split
  · exact Nat.mod_lt _ h
  · exact Nat.le_refl _

theorem packTileOff_inj (A : Desc) (hnb : 0 < A.nb) (hsq : A.mb = A.nb)
    {m n jj ii m' n' jj' ii' : Nat} (hm : m < A.mt) (hm' : m' < A.mt)
    (hjj : jj < convX2 A n - convX1 A n) (hii : ii < convY2 A m - convY1 A m)
    (hjj' : jj' < convX2 A n' - convX1 A n')
    (hii' : ii' < convY2 A m' - convY1 A m')
    (heq : packTileOff A m n jj ii = packTileOff A m' n' jj' ii') :
    m = m' ∧ n = n' ∧ jj = jj' ∧ ii = ii' := by
  have hmb : 0 < A.mb := hsq ▸ hnb
  have hx2 := convX2_le hnb n
  have hx2' := convX2_le hnb n'
  have hy2 := convY2_le hmb m
  have hy2' := convY2_le hmb m'
  have hcx : convX1 A n + jj < A.nb := by omega
  have hcx' : convX1 A n' + jj' < A.nb := by omega
  have hdy : convY1 A m + ii < A.nb := by omega
  have hdy' : convY1 A m' + ii' < A.nb := by omega
  have hinlt : ∀ c d2 : Nat, c < A.nb → d2 < A.nb → c * A.nb + d2 < A.nb * A.nb := by
    intro c d2 hc hd
    calc c * A.nb + d2 < c * A.nb + A.nb := Nat.add_lt_add_left hd _
    _ = (c + 1) * A.nb := (Nat.succ_mul c A.nb).symm
    _ ≤ A.nb * A.nb := Nat.mul_le_mul_right _ (Nat.succ_le_of_lt hc)
  have hre : packTileOff A m n jj ii =
      (m + A.mt * n) * (A.nb * A.nb) +
        ((convX1 A n + jj) * A.nb + (convY1 A m + ii)) := by
    unfold packTileOff plasma_tile_addr
    rw [hsq]; ring
  have hre' : packTileOff A m' n' jj' ii' =
      (m' + A.mt * n') * (A.nb * A.nb) +
        ((convX1 A n' + jj') * A.nb + (convY1 A m' + ii')) := by
    unfold packTileOff plasma_tile_addr
    rw [hsq]; ring
  rw [hre, hre'] at heq
  obtain ⟨htile, hin⟩ := euclid_unique (Nat.mul_pos hnb hnb)
    (hinlt _ _ hcx hdy) (hinlt _ _ hcx' hdy') heq
  have hmt : 0 < A.mt := Nat.lt_of_le_of_lt (Nat.zero_le m) hm
  have htile2 : n * A.mt + m = n' * A.mt + m' := by
    have h1 : m + A.mt * n = n * A.mt + m := by ring
    have h2 : m' + A.mt * n' = n' * A.mt + m' := by ring
    rw [← h1, ← h2]; exact htile
  obtain ⟨hn, hmm⟩ := euclid_unique hmt hm hm' htile2
  subst hn; subst hmm
  obtain ⟨hc, hd⟩ := euclid_unique hnb hdy hdy' hin
  exact ⟨rfl, rfl, by omega, by omega⟩

/-- C9 counterexample, two parts.  First: for a `PlasmaGeneral` descriptor
with `mt = 1, nt = 2` the conversion walk does *not* cover the full row
range — tile `(0, 1)` is never enumerated (the walk uses `n < m+1`, the
lower-triangle range, for every non-upper storage type).  Second: the two
directions use different tile leading dimensions
(`plasma_tile_nmain = nb` packing, `plasma_tile_mmain = mb` unpacking), so
for non-square tiles (`mb = 1, nb = 2`) the round trip does not reproduce
the buffer: the element at column-major address 1 comes back as 0, not 5. -/
theorem C9_roundtrip_counterexample :
    ((0, 1) ∉ tr2descTiles ⟨.PlasmaGeneral, 2, 2, 2, 4, 0, 0, 1, 2⟩) ∧
    plasma_pddesc2tr_blasfeo ⟨.PlasmaGeneral, 1, 2, 1, 2, 0, 0, 1, 1⟩
        (plasma_pdtr2desc_blasfeo (fun a => if a = 1 then 5 else 0) 1
          ⟨.PlasmaGeneral, 1, 2, 1, 2, 0, 0, 1, 1⟩ (fun _ => 0) ⟨PlasmaSuccess⟩)
        (fun a => if a = 1 then 5 else 0) 1 ⟨PlasmaSuccess⟩ 1 ≠
      (fun a : Nat => if a = 1 then (5 : ℤ) else 0) 1 := by
  constructor
  · decide
  · decide

/-- C9 amended: both conversion drivers enumerate the same tiles (`n ≤ m`,
the lower-triangle tile range, for general/lower storage; `n ≥ m` for
upper) with identical per-tile bounds, and for square tiles
(`A.mb = A.nb > 0`) converting a column-major buffer to tiled layout with
`plasma_pdtr2desc_blasfeo` and back with `plasma_pddesc2tr_blasfeo`
reproduces the original buffer exactly. -/
theorem C9_layout_roundtrip (A : Desc) (pA tiles : Nat → ℤ) (lda : Nat)
    (s : Sequence) (hsq : A.mb = A.nb) (hnb : 0 < A.nb)
    (hs : s.status = PlasmaSuccess) :
    desc2trTiles A = tr2descTiles A ∧
    plasma_pddesc2tr_blasfeo A (plasma_pdtr2desc_blasfeo pA lda A tiles s)
      pA lda s = pA := by
  refine ⟨rfl, ?_⟩
  have hsok : ¬ s.status ≠ PlasmaSuccess := by simp [hs]
  simp only [plasma_pdtr2desc_blasfeo, plasma_pddesc2tr_blasfeo, if_neg hsok]
  apply applyCopies_id
  intro p hp
  obtain ⟨m, n, jj, ii, hmn, hjj, hii, rfl⟩ := mem_desc2trCopies.1 hp
  have hmn' : (m, n) ∈ tr2descTiles A := hmn
  have hoff : unpackTileOff A m n jj ii = packTileOff A m n jj ii := by
    unfold unpackTileOff packTileOff
    rw [hsq]
  show applyCopies tiles pA (tr2descCopies lda A) (unpackTileOff A m n jj ii) =
    pA (f77Off A lda m n jj ii)
  rw [hoff]
  apply applyCopies_mem
  · exact mem_tr2descCopies.2 ⟨m, n, jj, ii, hmn', hjj, hii, rfl⟩
  · intro q hq hq1
    obtain ⟨m', n', jj', ii', hmn'', hjj', hii', rfl⟩ := mem_tr2descCopies.1 hq
    obtain ⟨rfl, rfl, rfl, rfl⟩ := packTileOff_inj A hnb hsq
      (mem_tr2descTiles_mt hmn'') (mem_tr2descTiles_mt hmn') hjj' hii' hjj hii hq1
    rfl

/-- Witness for C9's amended theorem on a concrete square-tile descriptor
with offsets and edge remainders. -/
theorem C9_layout_roundtrip_witness :
    desc2trTiles ⟨.PlasmaGeneral, 2, 2, 3, 3, 1, 1, 2, 2⟩ =
      tr2descTiles ⟨.PlasmaGeneral, 2, 2, 3, 3, 1, 1, 2, 2⟩ ∧
    plasma_pddesc2tr_blasfeo ⟨.PlasmaGeneral, 2, 2, 3, 3, 1, 1, 2, 2⟩
        (plasma_pdtr2desc_blasfeo (fun a : Nat => (a : ℤ) ^ 2) 5
          ⟨.PlasmaGeneral, 2, 2, 3, 3, 1, 1, 2, 2⟩ (fun _ => 0) ⟨PlasmaSuccess⟩)
        (fun a : Nat => (a : ℤ) ^ 2) 5 ⟨PlasmaSuccess⟩ = (fun a : Nat => (a : ℤ) ^ 2) :=
  C9_layout_roundtrip ⟨.PlasmaGeneral, 2, 2, 3, 3, 1, 1, 2, 2⟩
    (fun a : Nat => (a : ℤ) ^ 2) (fun _ => 0) 5 ⟨PlasmaSuccess⟩ rfl (by decide) rfl

/-- The single-tile kernel `plasma_core_dpotrf_blasfeo`
(core_dpotrf_blasfeo.c): calls the external numeric kernel
`blasfeo_dpotrf_l` on the tile and returns info 0.  The C symbol is
declared `__attribute__((weak))`, so the kernel actually linked may differ;
the dispatch-wrapper theorem is stated for an arbitrary core kernel. -/
def plasma_core_dpotrf_blasfeo {α : Type} (blasfeo_dpotrf_l : α → α) (mem : α) :
    α × Int :=
  (blasfeo_dpotrf_l mem, 0)

/-- The guarded task body enqueued by `plasma_core_omp_dpotrf_blasfeo`
(core_dpotrf_blasfeo.c, the `omp task` block): if the sequence is still
successful, run the core kernel and, when it reports nonzero local info,
call `plasma_request_fail(sequence, request, iinfo + info)`; otherwise do
nothing at all.  The result is the tile memory, the sequence, the request
and a flag recording whether the numeric kernel was invoked. -/
def plasma_core_omp_dpotrf_blasfeo_task {α : Type} (coreKernel : α → α × Int)
    (iinfo : Int) (sequence : Sequence) (request : Request) (mem : α) :
    α × Sequence × Request × Bool :=
  if sequence.status = PlasmaSuccess then
    if (coreKernel mem).2 ≠ 0 then
      ((coreKernel mem).1,
       (plasma_request_fail sequence request (iinfo + (coreKernel mem).2)).1,
       (plasma_request_fail sequence request (iinfo + (coreKernel mem).2)).2,
       true)
    else ((coreKernel mem).1, sequence, request, true)
  else (mem, sequence, request, false)

/-- C4: the kernel-dispatch wrapper's enqueued task is guarded: on a failed
sequence it performs no numeric work and writes nothing; on a successful
sequence it performs the kernel and, if the kernel reports nonzero local
info, fails the request and the sequence with the offset code
`iinfo + info`, and leaves the sequence untouched when info is zero. -/
theorem C4_dispatch_wrapper_guard {α : Type} (coreKernel : α → α × Int)
    (iinfo : Int) (s : Sequence) (r : Request) (mem : α) :
    (s.status ≠ PlasmaSuccess →
      plasma_core_omp_dpotrf_blasfeo_task coreKernel iinfo s r mem =
        (mem, s, r, false)) ∧
    (s.status = PlasmaSuccess →
      (plasma_core_omp_dpotrf_blasfeo_task coreKernel iinfo s r mem).1 =
          (coreKernel mem).1 ∧
      (plasma_core_omp_dpotrf_blasfeo_task coreKernel iinfo s r mem).2.2.2 = true ∧
      ((coreKernel mem).2 ≠ 0 →
        (plasma_core_omp_dpotrf_blasfeo_task coreKernel iinfo s r mem).2.1.status =
            iinfo + (coreKernel mem).2 ∧
        (plasma_core_omp_dpotrf_blasfeo_task coreKernel iinfo s r mem).2.2.1.status =
            iinfo + (coreKernel mem).2) ∧
      ((coreKernel mem).2 = 0 →
        (plasma_core_omp_dpotrf_blasfeo_task coreKernel iinfo s r mem).2.1 = s)) := by
  constructor
  · intro h
    simp [plasma_core_omp_dpotrf_blasfeo_task, h]
  · intro h
    refine ⟨?_, ?_, ?_, ?_⟩ <;>
      by_cases hinfo : (coreKernel mem).2 = 0 <;>
        simp [plasma_core_omp_dpotrf_blasfeo_task, plasma_request_fail, h, hinfo]

/-- Witness for C4: a kernel reporting info 3 under a successful sequence
(offset code 100 + 3), and a skipped task under a failed sequence. -/
theorem C4_dispatch_wrapper_guard_witness :
    (plasma_core_omp_dpotrf_blasfeo_task (fun m : Int => (m + 1, 3)) 100
        ⟨PlasmaErrorOutOfMemory⟩ ⟨PlasmaSuccess⟩ 7 =
      (7, ⟨PlasmaErrorOutOfMemory⟩, ⟨PlasmaSuccess⟩, false)) ∧
    (plasma_core_omp_dpotrf_blasfeo_task (fun m : Int => (m + 1, 3)) 100
        ⟨PlasmaSuccess⟩ ⟨PlasmaSuccess⟩ 7).2.1.status = 103 :=
  ⟨(C4_dispatch_wrapper_guard (fun m : Int => (m + 1, 3)) 100
      ⟨PlasmaErrorOutOfMemory⟩ ⟨PlasmaSuccess⟩ 7).1 (by decide),
   ((C4_dispatch_wrapper_guard (fun m : Int => (m + 1, 3)) 100
      ⟨PlasmaSuccess⟩ ⟨PlasmaSuccess⟩ 7).2 rfl).2.2.1 (by decide) |>.1⟩

/-- The complex scalar type `plasma_complex64_t`, modelled as a pair of
exact rationals (the sources compare it only against the exact constants
`0.0` and `1.0`). -/
abbrev Complex64 := ℚ × ℚ

/-- The complex constant `0.0`. -/
def czero : Complex64 := (0, 0)

/-- The complex constant `1.0`. -/
def cone : Complex64 := (1, 0)

/-- Outcome of the top-level `PLASMA_zsyrk` entry point. -/
inductive ZsyrkOutcome
  | error (code : Int)
  | quickReturn
  | async
  deriving DecidableEq, Repr

/-- The work items `PLASMA_zsyrk` performs once past validation and the
quick return: descriptor creation, layout translation, the tile-async
compute call, and translation back. -/
inductive ZsyrkAction
  | createDescA
  | createDescC
  | translateA
  | translateC
  | computeSyrk
  | translateBack
  deriving DecidableEq, Repr

/-- The entry point `PLASMA_zsyrk` (compute/zsyrk.c): context check,
argument validation (returning the C error codes -1, -2, -3, -4, -7, -10),
the quick return `n == 0 || ((alpha == 0.0 || k == 0) && beta == 1.0)`
returning `PlasmaSuccess` before any descriptor is created, then the
asynchronous region.  `plasma` is `some nb` when the library context is
initialized.  `.quickReturn` denotes returning `PlasmaSuccess` with no
work performed; allocation failures inside the async path are not modelled. -/
def PLASMA_zsyrk (plasma : Option Nat) (uplo trans : plasma_enum_t)
    (n k : Int) (alpha : Complex64) (lda : Int) (beta : Complex64)
    (ldc : Int) : ZsyrkOutcome × List ZsyrkAction :=
  match plasma with
  | none => (.error PlasmaErrorNotInit, [])
  | some _nb =>
    if ¬(uplo = .PlasmaUpper ∨ uplo = .PlasmaLower) then (.error (-1), [])
    else if ¬(trans = .PlasmaNoTrans ∨ trans = .PlasmaTrans) then (.error (-2), [])
    else if n < 0 then (.error (-3), [])
    else if k < 0 then (.error (-4), [])
    else if lda < imax 1 (if trans = .PlasmaNoTrans then n else k) then
      (.error (-7), [])
    else if ldc < imax 1 n then (.error (-10), [])
    else if n = 0 ∨ ((alpha = czero ∨ k = 0) ∧ beta = cone) then
      (.quickReturn, [])
    else
      (.async, [.createDescA, .createDescC, .translateA, .translateC,
        .computeSyrk, .translateBack])

/-- Modelled from the spec: `plasma_desc_check` (control code not in src/) —
a descriptor is valid when its tile sizes are positive and its tile-grid
dimensions are consistent with the offset and extent. -/
def plasma_desc_check (A : Desc) : Int :=
  if 0 < A.mb ∧ 0 < A.nb ∧ A.mt = (A.i % A.mb + A.m + A.mb - 1) / A.mb ∧
      A.nt = (A.j % A.nb + A.n + A.nb - 1) / A.nb then PlasmaSuccess
  else PlasmaErrorIllegalValue

/-- The tile-async entry point `plasma_omp_zsyrk` (compute/zsyrk.c):
validation failures go through `plasma_request_fail(…,
PlasmaErrorIllegalValue)`; the quick return takes `n` from the C descriptor
and `k` from the A descriptor and returns without failing the sequence; the
final Bool records whether `plasma_pzsyrk` was called.  (The C NULL-pointer
checks on sequence/request cannot arise in the embedding, where both are
values.) -/
def plasma_omp_zsyrk (plasma : Option Nat) (uplo trans : plasma_enum_t)
    (alpha : Complex64) (A : Desc) (beta : Complex64) (C : Desc)
    (sequence : Sequence) (request : Request) : Sequence × Request × Bool :=
  match plasma with
  | none =>
      ((plasma_request_fail sequence request PlasmaErrorIllegalValue).1,
       (plasma_request_fail sequence request PlasmaErrorIllegalValue).2, false)
  | some _nb =>
    if ¬(uplo = .PlasmaUpper ∨ uplo = .PlasmaLower) then
      ((plasma_request_fail sequence request PlasmaErrorIllegalValue).1,
       (plasma_request_fail sequence request PlasmaErrorIllegalValue).2, false)
    else if ¬(trans = .PlasmaNoTrans ∨ trans = .PlasmaTrans) then
      ((plasma_request_fail sequence request PlasmaErrorIllegalValue).1,
       (plasma_request_fail sequence request PlasmaErrorIllegalValue).2, false)
    else if plasma_desc_check A ≠ PlasmaSuccess then
      ((plasma_request_fail sequence request PlasmaErrorIllegalValue).1,
       (plasma_request_fail sequence request PlasmaErrorIllegalValue).2, false)
    else if plasma_desc_check C ≠ PlasmaSuccess then
      ((plasma_request_fail sequence request PlasmaErrorIllegalValue).1,
       (plasma_request_fail sequence request PlasmaErrorIllegalValue).2, false)
    else if C.m = 0 ∨ ((alpha = czero ∨
        (if trans = .PlasmaNoTrans then A.n else A.m) = 0) ∧ beta = cone) then
      (sequence, request, false)
    else (sequence, request, true)

/-- C10: the quick return of the syrk entry points.  After passing
validation, `PLASMA_zsyrk` returns `PlasmaSuccess` immediately — creating
no descriptors, enqueuing nothing, touching neither A nor C — whenever
`n == 0` or `(alpha == 0.0 or k == 0) and beta == 1.0`; and
`plasma_omp_zsyrk` applies the same condition (`n` from the C descriptor,
`k` from the A descriptor) returning with the sequence and request
untouched and without calling the parallel driver. -/
theorem C10_zsyrk_quick_return (nb : Nat) (uplo trans : plasma_enum_t)
    (n k : Int) (alpha beta : Complex64) (lda ldc : Int) (A C : Desc)
    (s : Sequence) (r : Request)
    (hu : uplo = .PlasmaUpper ∨ uplo = .PlasmaLower)
    (ht : trans = .PlasmaNoTrans ∨ trans = .PlasmaTrans)
    (hn : 0 ≤ n) (hk : 0 ≤ k)
    (hlda : imax 1 (if trans = .PlasmaNoTrans then n else k) ≤ lda)
    (hldc : imax 1 n ≤ ldc)
    (hq : n = 0 ∨ ((alpha = czero ∨ k = 0) ∧ beta = cone))
    (hdA : plasma_desc_check A = PlasmaSuccess)
    (hdC : plasma_desc_check C = PlasmaSuccess)
    (hq2 : C.m = 0 ∨ ((alpha = czero ∨
      (if trans = .PlasmaNoTrans then A.n else A.m) = 0) ∧ beta = cone)) :
    PLASMA_zsyrk (some nb) uplo trans n k alpha lda beta ldc =
      (.quickReturn, []) ∧
    plasma_omp_zsyrk (some nb) uplo trans alpha A beta C s r = (s, r, false) := by
  constructor
  · simp only [PLASMA_zsyrk]
    rw [if_neg (not_not_intro hu), if_neg (not_not_intro ht),
      if_neg (by omega : ¬ n < 0), if_neg (by omega : ¬ k < 0),
      if_neg (not_lt.2 hlda), if_neg (not_lt.2 hldc), if_pos hq]
  · simp only [plasma_omp_zsyrk]
    rw [if_neg (not_not_intro hu), if_neg (not_not_intro ht),
      if_neg (not_not_intro hdA), if_neg (not_not_intro hdC), if_pos hq2]

/-- Witness for C10: `k = 0` with `beta = 1.0` (top level), and an A
descriptor with zero columns (tile-async level). -/
theorem C10_zsyrk_quick_return_witness :
    PLASMA_zsyrk (some 2) .PlasmaUpper .PlasmaNoTrans 3 0 (2, 0) 3 cone 3 =
      (.quickReturn, []) ∧
    plasma_omp_zsyrk (some 2) .PlasmaUpper .PlasmaNoTrans (2, 0)
        ⟨.PlasmaGeneral, 2, 2, 3, 0, 0, 0, 2, 0⟩ cone
        ⟨.PlasmaGeneral, 2, 2, 3, 3, 0, 0, 2, 2⟩ ⟨PlasmaSuccess⟩ ⟨PlasmaSuccess⟩ =
      (⟨PlasmaSuccess⟩, ⟨PlasmaSuccess⟩, false) :=
  C10_zsyrk_quick_return 2 .PlasmaUpper .PlasmaNoTrans 3 0 (2, 0) cone 3 3
    ⟨.PlasmaGeneral, 2, 2, 3, 0, 0, 0, 2, 0⟩
    ⟨.PlasmaGeneral, 2, 2, 3, 3, 0, 0, 2, 2⟩ ⟨PlasmaSuccess⟩ ⟨PlasmaSuccess⟩
    (Or.inl rfl) (Or.inl rfl) (by decide) (by decide) (by decide) (by decide)
    (Or.inr ⟨Or.inr rfl, rfl⟩) (by decide) (by decide)
    (Or.inr ⟨Or.inr (by decide), rfl⟩)

end Plasma
